import Mathlib

/-!
Verification of the enhanced AI-content detector (src/enhanced-detector.js).

The JavaScript module is shallowly embedded here.  JavaScript numbers are
idealised as exact rationals (`ℚ`) except inside the embedding-similarity
computation, whose square roots force an exact real (`ℝ`) reading; there the
arithmetic is kept parametric in a linearly ordered field together with the
square-root primitive, so every definition stays computable and the theorems
instantiate the parameter with `Real.sqrt`.  `Math.round` is half-up rounding,
i.e. `fun x => Int.floor (x + 1/2)`, which agrees with JavaScript on all
finite inputs.  Remote calls (the chat completion, the embedding request) are
modelled as explicit inputs: the embedding analysis receives the embedding
vector, and the batch orchestrator receives the per-text analysis outcome as
a function into `Except`.
-/

set_option autoImplicit false

/-- JavaScript `Math.round`: round half towards positive infinity. -/
def jsRound {K : Type} [LinearOrderedField K] [FloorRing K] (x : K) : ℤ :=
  ⌊x + 1 / 2⌋

/-- Shape of a scoring result (the object produced by the completion call,
by `performEmbeddingAnalysis`, and by `combineAnalysisResults`). -/
structure ScoreResult where
  aiProbability : ℚ
  confidence : ℚ
  factors : List String
  likelySource : String
  reasoning : String
  model : String
deriving DecidableEq

/-- `combineAnalysisResults` from enhanced-detector.js: fixed-weight merge of
the embedding result (weight 0.3) and the completion result (weight 0.7). -/
def combineAnalysisResults (embeddingResult completionResult : ScoreResult) :
    ScoreResult :=
  let embeddingWeight : ℚ := 3 / 10
  let completionWeight : ℚ := 7 / 10
  let weightedAiProbability : ℤ :=
    jsRound (embeddingResult.aiProbability * embeddingWeight +
      completionResult.aiProbability * completionWeight)
  let weightedConfidence : ℤ :=
    jsRound (embeddingResult.confidence * embeddingWeight +
      completionResult.confidence * completionWeight)
  let combinedFactors := embeddingResult.factors ++ completionResult.factors
  let likelySource := if weightedAiProbability > 60 then "ai" else "human"
  let combinedReasoning :=
    "Combined analysis: " ++ completionResult.reasoning ++
      " Additionally, embedding similarity analysis suggests a " ++
      toString embeddingResult.aiProbability ++
      "% probability of AI generation."
  { aiProbability := (weightedAiProbability : ℚ)
  , confidence := (weightedConfidence : ℚ)
  , factors := combinedFactors
  , likelySource := likelySource
  , reasoning := combinedReasoning
  , model := "hybrid-approach" }

/-- The character class of the JavaScript regex `\s` (whitespace), as used by
`replace(/\s+/g, ...)`, by `trim()` and inside the keep-list of the final
character filter. -/
def isWs (c : Char) : Bool :=
  c == ' ' || c == '\t' || c == '\n' || c == '\r' ||
  c == '\x0b' || c == '\x0c' || c == '\u00A0' || c == '\u1680' ||
  (decide ('\u2000' ≤ c) && decide (c ≤ '\u200A')) ||
  c == '\u2028' || c == '\u2029' || c == '\u202F' || c == '\u205F' ||
  c == '\u3000' || c == '\uFEFF'

/-- The character class of the JavaScript regex `\w` (ASCII word character). -/
def isWordChar (c : Char) : Bool :=
  (decide ('a' ≤ c) && decide (c ≤ 'z')) ||
  (decide ('A' ≤ c) && decide (c ≤ 'Z')) ||
  (decide ('0' ≤ c) && decide (c ≤ '9')) || c == '_'

/-- The punctuation characters kept by the final filter of `preprocessText`
(the regex `[^\w\s.,!?;:'"()\-]`). -/
def keptPunct : List Char :=
  ['.', ',', '!', '?', ';', ':', '\'', '"', '(', ')', '-']

/-- A character survives the final filter of `preprocessText` iff it is a
word character, whitespace, or one of the kept punctuation marks. -/
def keepChar (c : Char) : Bool :=
  isWordChar c || isWs c || keptPunct.contains c

/-- `replace(/\s+/g, ' ')`: collapse every whitespace run to a single space.
The boolean argument records whether the previous character was whitespace
(i.e. whether we are inside a run that has already emitted its space). -/
def collapseWsAux : Bool → List Char → List Char
  | _, [] => []
  | prevWs, c :: cs =>
    if isWs c then
      if prevWs then collapseWsAux true cs
      else ' ' :: collapseWsAux true cs
    else c :: collapseWsAux false cs

def collapseWs (l : List Char) : List Char :=
  collapseWsAux false l

/-- JavaScript `String.prototype.trim`. -/
def jsTrimList (l : List Char) : List Char :=
  ((l.dropWhile isWs).reverse.dropWhile isWs).reverse

def jsTrimStr (s : String) : String :=
  String.mk (jsTrimList s.toList)

/-- One attempted match of `/https?:\/\/\S+/` at the head of the list:
returns the remainder after the match, or `none` when the regex does not
match here (the scheme prefix is absent, or no non-whitespace character
follows it). -/
def urlMatch (l : List Char) : Option (List Char) :=
  let tryAt : Nat → Option (List Char) := fun k =>
    let rest := l.drop k
    let tailPart := rest.dropWhile (fun c => !(isWs c))
    if tailPart.length < rest.length then some tailPart else none
  if ("https://".toList).isPrefixOf l then tryAt 8
  else if ("http://".toList).isPrefixOf l then tryAt 7
  else none

/-- Global regex replacement by the empty string: scan left to right, and
where the matcher fires, drop the matched segment and resume after it.  The
fuel argument (instantiated with the length of the list) bounds the number of
scanning steps; every step either consumes one unmatched character or a
nonempty match, so fuel equal to the length is always sufficient. -/
def removeAllAux (m : List Char → Option (List Char)) :
    Nat → List Char → List Char
  | _, [] => []
  | 0, l => l
  | fuel + 1, c :: cs =>
    match m (c :: cs) with
    | some rest => removeAllAux m fuel rest
    | none => c :: removeAllAux m fuel cs

def removeAll (m : List Char → Option (List Char)) (l : List Char) :
    List Char :=
  removeAllAux m l.length l

/-- `replace(/https?:\/\/\S+/g, '')`. -/
def removeUrls (l : List Char) : List Char :=
  removeAll urlMatch l

/-- The character class `[\w.-]` of the email regex. -/
def isEmailChar (c : Char) : Bool :=
  isWordChar c || c == '.' || c == '-'

/-- Backtracking search for the split point of `[\w.-]+\.\w+`: inside the
maximal `[\w.-]` run `run`, find the largest position `j ≥ 1` holding a dot
that is followed by a word character (the regex engine tries the longest
first group first, so the rightmost viable dot wins). -/
def emailDotSearch (run : List Char) : Nat → Option Nat
  | 0 => none
  | k + 1 =>
    if run[k + 1]? == some '.' &&
        (match run[k + 2]? with
          | some c => isWordChar c
          | none => false) then
      some (k + 1)
    else emailDotSearch run k

/-- Match `[\w.-]+\.\w+` at the head of `l` (the part of the email regex
after the `@`), returning the remainder after the greedy trailing `\w+`. -/
def emailTailMatch (l : List Char) : Option (List Char) :=
  let run := l.takeWhile isEmailChar
  match emailDotSearch run (run.length - 1) with
  | none => none
  | some j =>
    let wordRun := (l.drop (j + 1)).takeWhile isWordChar
    some (l.drop (j + 1 + wordRun.length))

/-- One attempted match of `/[\w.-]+@[\w.-]+\.\w+/` at the head of the list.
The leading `[\w.-]+` is the maximal class run (its class excludes `@`, so
backtracking cannot shorten it into a match), then a literal `@`, then the
tail pattern. -/
def emailMatch (l : List Char) : Option (List Char) :=
  let run1 := l.takeWhile isEmailChar
  if run1.isEmpty then none
  else
    match l.drop run1.length with
    | '@' :: rest2 => emailTailMatch rest2
    | _ => none

/-- `replace(/[\w.-]+@[\w.-]+\.\w+/g, '')`. -/
def removeEmails (l : List Char) : List Char :=
  removeAll emailMatch l

/-- `preprocessText` from enhanced-detector.js: falsy (empty) input yields
the empty string; otherwise collapse and trim whitespace, remove URLs,
remove email addresses, and drop every character outside the whitelist. -/
def preprocessText (text : String) : String :=
  if text = "" then ""
  else
    let processed1 := jsTrimList (collapseWs text.toList)
    let processed2 := removeUrls processed1
    let processed3 := removeEmails processed2
    String.mk (processed3.filter keepChar)

/-- JavaScript `split(sep)` for a single-character separator: empty tokens
are kept, and the result is always nonempty. -/
def jsSplit (sep : Char) : List Char → List (List Char)
  | [] => [[]]
  | c :: cs =>
    if c = sep then [] :: jsSplit sep cs
    else
      match jsSplit sep cs with
      | [] => [[c]]
      | t :: ts => (c :: t) :: ts

/-- ASCII lowercasing, as `toLowerCase()` acts on the ASCII range (the only
range exercised by the statistics pipeline; non-ASCII letters are left
unchanged by this model). -/
def jsToLower (c : Char) : Char :=
  match c with
  | 'A' => 'a' | 'B' => 'b' | 'C' => 'c' | 'D' => 'd' | 'E' => 'e'
  | 'F' => 'f' | 'G' => 'g' | 'H' => 'h' | 'I' => 'i' | 'J' => 'j'
  | 'K' => 'k' | 'L' => 'l' | 'M' => 'm' | 'N' => 'n' | 'O' => 'o'
  | 'P' => 'p' | 'Q' => 'q' | 'R' => 'r' | 'S' => 's' | 'T' => 't'
  | 'U' => 'u' | 'V' => 'v' | 'W' => 'w' | 'X' => 'x' | 'Y' => 'y'
  | 'Z' => 'z'
  | c => c

def toLowerList (l : List Char) : List Char :=
  l.map jsToLower

/-- Sentence terminators: the class `[.!?]` of the sentence-counting regex. -/
def sentencePunct (c : Char) : Bool :=
  c == '.' || c == '!' || c == '?'

/-- Number of maximal runs of characters satisfying `p` (the number of
matches of `/[cls]+/g`).  The boolean flag records whether the previous
character belonged to a run. -/
def countRunsAux (p : Char → Bool) : Bool → List Char → Nat
  | _, [] => 0
  | inRun, c :: cs =>
    if p c then
      if inRun then countRunsAux p true cs
      else countRunsAux p true cs + 1
    else countRunsAux p false cs

def countRuns (p : Char → Bool) (l : List Char) : Nat :=
  countRunsAux p false l

/-- Vowel class used by the syllable counter (`[aeiouy]`). -/
def isVowel (c : Char) : Bool :=
  c == 'a' || c == 'e' || c == 'i' || c == 'o' || c == 'u' || c == 'y'

/-- Per-word syllable estimate of `countSyllables`: the number of vowel
groups, minus one when the word ends in `e` but not `le`, minus one when it
ends in `es` or `ed` (the running total in the source is a plain number, so
the per-word contribution is kept as an integer). -/
def countSyllablesWord (word : List Char) : ℤ :=
  (countRuns isVowel word : ℤ) -
    (if ['e'].isSuffixOf word && !(['l', 'e'].isSuffixOf word) then 1 else 0) -
    (if ['e', 's'].isSuffixOf word || ['e', 'd'].isSuffixOf word then 1
      else 0)

/-- `countSyllables` from enhanced-detector.js: sum the per-word estimates
over the space-split lowercased text, floored at 1. -/
def countSyllables (l : List Char) : ℤ :=
  max 1 (((jsSplit ' ' (toLowerList l)).map countSyllablesWord).sum)

/-- The alternatives of the personal-pronoun regex, in source order,
lowercased for the case-insensitive comparison. -/
def personalPronounAlternatives : List (List Char) :=
  ["i", "me", "my", "mine", "myself", "we", "us", "our", "ours",
    "ourselves"].map String.toList

/-- Try the pronoun alternatives in order at the head of `l`: an alternative
matches when it equals the lowercased prefix of `l` of its length and the
following character (if any) is not a word character (the trailing `\b`).
Returns the remainder after the match. -/
def pronounMatch : List (List Char) → List Char → Option (List Char)
  | [], _ => none
  | p :: ps, l =>
    if toLowerList (l.take p.length) = p &&
        (match l.drop p.length with
          | [] => true
          | c :: _ => !isWordChar c) then
      some (l.drop p.length)
    else pronounMatch ps l

/-- Count the matches of `/\b(I|me|my|mine|myself|we|us|our|ours|ourselves)\b/gi`:
scan left to right; a match may start only at a position whose previous
character is not a word character (the leading `\b`), and scanning resumes
after each match.  Fuel as in `removeAllAux`. -/
def countPronounsAux : Nat → Bool → List Char → Nat
  | 0, _, _ => 0
  | _, _, [] => 0
  | fuel + 1, prevWord, c :: cs =>
    if !prevWord then
      match pronounMatch personalPronounAlternatives (c :: cs) with
      | some rest => countPronounsAux fuel true rest + 1
      | none => countPronounsAux fuel (isWordChar c) cs
    else countPronounsAux fuel (isWordChar c) cs

def countPronouns (l : List Char) : Nat :=
  countPronounsAux l.length false l

/-- The statistics record produced by `calculateEnhancedTextStats`. -/
structure TextStats where
  words : Nat
  sentences : Nat
  avgWordsPerSentence : ℚ
  longWords : Nat
  personalPronouns : Nat
  readabilityScore : ℚ
  lexicalDiversity : ℚ
deriving DecidableEq

def zeroStats : TextStats :=
  { words := 0, sentences := 0, avgWordsPerSentence := 0, longWords := 0,
    personalPronouns := 0, readabilityScore := 0, lexicalDiversity := 0 }

/-- `calculateEnhancedTextStats` from enhanced-detector.js.  Falsy (empty)
input short-circuits to the all-zero record.  Note: when `words = 0` on a
non-empty input (e.g. the single-space string), the source divides by zero
computing `syllables / words`, which in JavaScript produces `Infinity`; in
this rational model that division yields 0, so the `readabilityScore` value
differs there (the claims below do not rely on its value in that case). -/
def calculateEnhancedTextStats (text : String) : TextStats :=
  if text = "" then zeroStats
  else
    let l := text.toList
    let words := ((jsSplit ' ' l).filter (fun w => decide (0 < w.length))).length
    let sentences := max 1 (countRuns sentencePunct l)
    let avgWordsPerSentence : ℚ := (words : ℚ) / (sentences : ℚ)
    let longWords := ((jsSplit ' ' l).filter (fun w => decide (6 < w.length))).length
    let personalPronouns := countPronouns l
    let syllables := countSyllables l
    let readabilityScore : ℚ :=
      39 / 100 * ((words : ℚ) / (sentences : ℚ)) +
        118 / 10 * ((syllables : ℚ) / (words : ℚ)) - 1559 / 100
    let uniqueWords := ((jsSplit ' ' (toLowerList l)).dedup).length
    let lexicalDiversity : ℚ :=
      if 0 < words then (uniqueWords : ℚ) / (words : ℚ) else 0
    { words := words
    , sentences := sentences
    , avgWordsPerSentence := avgWordsPerSentence
    , longWords := longWords
    , personalPronouns := personalPronouns
    , readabilityScore := ((jsRound (readabilityScore * 10) : ℤ) : ℚ) / 10
    , lexicalDiversity := ((jsRound (lexicalDiversity * 100) : ℤ) : ℚ) / 100 }

/-- Whitespace-normal form: no leading or trailing whitespace and no two
adjacent whitespace characters (used to state what claim C6 asserts of the
output of `preprocessText`). -/
def noAdjacentWs : List Char → Bool
  | [] => true
  | [_] => true
  | a :: b :: t => !(isWs a && isWs b) && noAdjacentWs (b :: t)

def wsNormalized (l : List Char) : Bool :=
  (match l with
    | [] => true
    | c :: _ => !isWs c) &&
  (match l.getLast? with
    | none => true
    | some c => !isWs c) &&
  noAdjacentWs l

/-- The length qualifier used by `getEnhancedInterpretation` for samples of
fewer than 15 words. -/
def shortQualifier : String :=
  "This sample is very short, which typically affects certainty, but our analysis suggests: "

def standardQualifier : String :=
  "Based on our comprehensive analysis: "

def humanSummary : String :=
  "This text is likely human-written with natural speech patterns."

def mixedSummary : String :=
  "This text has mixed indicators that could suggest either human or AI authorship."

def aiSummary : String :=
  "This text shows patterns consistent with AI-generated content."

def lowDiversityNote : String :=
  " The low lexical diversity (repetitive vocabulary) is a common indicator of AI-generated text."

def noPronounsNote : String :=
  " The absence of personal pronouns is unusual for human writing."

def highReadabilityNote : String :=
  " The high readability score suggests formal, well-structured writing typical of AI."

/-- `getEnhancedInterpretation` from enhanced-detector.js: a length
qualifier, a probability-threshold summary, then three conditional notes
appended in order. -/
def getEnhancedInterpretation (analysisResult : ScoreResult)
    (textStats : TextStats) : String :=
  let lengthQualifier :=
    if textStats.words < 15 then shortQualifier else standardQualifier
  let interpretation1 := lengthQualifier ++
    (if analysisResult.aiProbability < 30 then humanSummary
      else if analysisResult.aiProbability < 60 then mixedSummary
      else aiSummary)
  let interpretation2 := interpretation1 ++
    (if textStats.lexicalDiversity < 1 / 2 ∧ textStats.words > 50 then
      lowDiversityNote else "")
  let interpretation3 := interpretation2 ++
    (if textStats.personalPronouns = 0 ∧ textStats.words > 30 then
      noPronounsNote else "")
  interpretation3 ++
    (if textStats.readabilityScore > 12 then highReadabilityNote else "")

/-- The accumulation loop of `cosineSimilarity`: sum of pointwise products
(dot product; with both arguments equal, the squared norm). -/
def sumMul {K : Type} [LinearOrderedField K] (v w : List K) : K :=
  (List.zipWith (fun a b => a * b) v w).sum

/-- `cosineSimilarity` from enhanced-detector.js, parametric in the
square-root primitive (JavaScript `Math.sqrt`; the theorems instantiate it
with `Real.sqrt`).  Mismatched lengths yield 0, and a zero norm yields 0. -/
def cosineSimilarity {K : Type} [LinearOrderedField K] (sqrt : K → K)
    (vec1 vec2 : List K) : K :=
  if vec1.length ≠ vec2.length then 0
  else
    let dotProd := sumMul vec1 vec2
    let norm1 := sqrt (sumMul vec1 vec1)
    let norm2 := sqrt (sumMul vec2 vec2)
    if norm1 = 0 ∨ norm2 = 0 then 0
    else dotProd / (norm1 * norm2)

/-- The fixed "AI pattern" reference embedding, `Array(1536).fill(0.1)`. -/
def aiPatternVec {K : Type} [LinearOrderedField K] : List K :=
  List.replicate 1536 (1 / 10)

/-- The fixed "human pattern" reference embedding, `Array(1536).fill(0.2)`. -/
def humanPatternVec {K : Type} [LinearOrderedField K] : List K :=
  List.replicate 1536 (2 / 10)

/-- `performEmbeddingAnalysis` from enhanced-detector.js.  The remote
embedding call is modelled by passing the embedding vector it returned; the
similarity arithmetic is parametric in the square-root primitive.  The
rounded probability is an integer, so the result record stays rational. -/
def performEmbeddingAnalysis {K : Type} [LinearOrderedField K] [FloorRing K]
    (sqrt : K → K) (textEmbedding : List K) : ScoreResult :=
  let aiSimilarity := cosineSimilarity sqrt textEmbedding aiPatternVec
  let humanSimilarity := cosineSimilarity sqrt textEmbedding humanPatternVec
  let totalSimilarity := aiSimilarity + humanSimilarity
  let aiProbability : ℤ :=
    if totalSimilarity > 0 then jsRound (aiSimilarity / totalSimilarity * 100)
    else 50
  { aiProbability := (aiProbability : ℚ)
  , confidence := 70
  , factors := ["Embedding similarity analysis"]
  , likelySource := if aiProbability > 60 then "ai" else "human"
  , reasoning := "Based on embedding similarity, this text has a " ++
      toString aiProbability ++ "% probability of being AI-generated."
  , model := "text-embedding-ada-002" }

/-- The fields of a single-text analysis result that the batch wrapper reads
(the wrapper spreads the full analysis object; the sentinel record and the
claims below involve exactly these fields). -/
structure SingleAnalysis where
  aiProbability : ℚ
  confidence : ℚ
  interpretation : String
deriving DecidableEq

/-- One slot of the batch output: the input text, an error message for a
failed item, and the analysis fields. -/
structure BatchItem where
  text : String
  error : Option String
  aiProbability : ℚ
  confidence : ℚ
  interpretation : String
deriving DecidableEq

/-- The truthiness test `if (text.trim())` of the batch loop. -/
def isNonBlank (t : String) : Bool :=
  jsTrimStr t != ""

/-- The outcome recorded for one non-blank batch item: the analysis result
spread into the slot on success, the sentinel record on failure (the
`.catch` handler of the source).  The single-text analysis is modelled as a
function into `Except`, standing for the remote pipeline. -/
def itemFor (analyze : String → Except String SingleAnalysis)
    (text : String) : BatchItem :=
  match analyze text with
  | Except.ok analysis =>
    { text := text, error := none, aiProbability := analysis.aiProbability,
      confidence := analysis.confidence,
      interpretation := analysis.interpretation }
  | Except.error msg =>
    { text := text, error := some msg, aiProbability := 50, confidence := 10,
      interpretation := "Analysis failed" }

/-- The per-item promise of the batch loop: `null` (here `none`) for blank
items, otherwise the success-or-sentinel record. -/
def processItem (analyze : String → Except String SingleAnalysis)
    (text : String) : Option BatchItem :=
  if isNonBlank text then some (itemFor analyze text) else none

/-- `const batchSize = 3`. -/
def batchSize : Nat := 3

/-- The grouping of the batch loop `for (i = 0; i < texts.length; i += n)`
with `texts.slice(i, i + n)`: successive groups of `n`, the last possibly
smaller.  Fuel as in `removeAllAux`. -/
def chunksAux {α : Type} (n : Nat) : Nat → List α → List (List α)
  | _, [] => []
  | 0, _ :: _ => []
  | fuel + 1, x :: xs =>
    (x :: xs).take n :: chunksAux n fuel ((x :: xs).drop n)

def chunks {α : Type} (n : Nat) (l : List α) : List (List α) :=
  chunksAux n l.length l

/-- `analyzeBatchWithEnhancedOpenAI` from enhanced-detector.js: process the
inputs in groups of `batchSize`, map each group member to its promise
outcome, filter out the `null` slots of blank items, and append the group
results in order.  (The inter-group one-second pacing delay has no
observable effect on the result sequence and is not modelled.) -/
def analyzeBatchWithEnhancedOpenAI
    (analyze : String → Except String SingleAnalysis)
    (texts : List String) : List BatchItem :=
  ((chunks batchSize texts).map
    (fun batch => (batch.map (processItem analyze)).reduceOption)).flatten

theorem jsRound_intCast {K : Type} [LinearOrderedField K] [FloorRing K]
    (z : ℤ) : jsRound ((z : K)) = z := by
  unfold jsRound
  have h0 : ⌊(1 / 2 : K)⌋ = 0 := by
    rw [Int.floor_eq_zero_iff]
    constructor <;> norm_num
  rw [Int.floor_int_add, h0, add_zero]

theorem le_jsRound {K : Type} [LinearOrderedField K] [FloorRing K]
    (z : ℤ) (x : K) (h : (z : K) ≤ x) : z ≤ jsRound x := by
  unfold jsRound
  rw [Int.le_floor]
  have : (0 : K) ≤ 1 / 2 := by norm_num
  linarith

theorem jsRound_le {K : Type} [LinearOrderedField K] [FloorRing K]
    (z : ℤ) (x : K) (h : x ≤ (z : K)) : jsRound x ≤ z := by
  unfold jsRound
  have hlt : x + 1 / 2 < ((z + 1 : ℤ) : K) := by push_cast; linarith
  have := Int.floor_lt.mpr hlt
  omega

/-- Claim C1: `combineAnalysisResults` returns the half-up rounding of the
0.3/0.7 weighted average for both aiProbability and confidence, concatenates
the factor lists with the completion factors last, labels the source "ai"
exactly when the weighted probability exceeds 60, and on the concrete pair
(embedding 40/70, completion 80/90) yields 68 and 84. -/
theorem C1_combine_weighted (e c : ScoreResult) :
    (combineAnalysisResults e c).aiProbability =
      ((jsRound (3 / 10 * e.aiProbability + 7 / 10 * c.aiProbability) : ℤ) : ℚ) ∧
    (combineAnalysisResults e c).confidence =
      ((jsRound (3 / 10 * e.confidence + 7 / 10 * c.confidence) : ℤ) : ℚ) ∧
    (combineAnalysisResults e c).factors = e.factors ++ c.factors ∧
    (combineAnalysisResults e c).likelySource =
      (if jsRound (3 / 10 * e.aiProbability + 7 / 10 * c.aiProbability) > 60
        then "ai" else "human") ∧
    (combineAnalysisResults
        { aiProbability := 40, confidence := 70, factors := [],
          likelySource := "human", reasoning := "", model := "" }
        { aiProbability := 80, confidence := 90, factors := [],
          likelySource := "ai", reasoning := "", model := "" }).aiProbability = 68 ∧
    (combineAnalysisResults
        { aiProbability := 40, confidence := 70, factors := [],
          likelySource := "human", reasoning := "", model := "" }
        { aiProbability := 80, confidence := 90, factors := [],
          likelySource := "ai", reasoning := "", model := "" }).confidence = 84 := by
  have harg : ∀ x y : ℚ, x * (3 / 10) + y * (7 / 10) = 3 / 10 * x + 7 / 10 * y := by
    intro x y; ring
  refine ⟨?_, ?_, rfl, ?_, ?_, ?_⟩
  · simp only [combineAnalysisResults, harg]
  · simp only [combineAnalysisResults, harg]
  · simp only [combineAnalysisResults, harg]
  · show ((jsRound ((40 : ℚ) * (3 / 10) + 80 * (7 / 10)) : ℤ) : ℚ) = 68
    norm_num [jsRound]
  · show ((jsRound ((70 : ℚ) * (3 / 10) + 90 * (7 / 10)) : ℤ) : ℚ) = 84
    norm_num [jsRound]

/-- Claim C4, counterexample: `combineAnalysisResults` performs no clamping;
a pair of results with aiProbability 200 yields aiProbability 200 > 100. -/
theorem C4_counterexample :
    (combineAnalysisResults
      { aiProbability := 200, confidence := 200, factors := [],
        likelySource := "", reasoning := "", model := "" }
      { aiProbability := 200, confidence := 200, factors := [],
        likelySource := "", reasoning := "", model := "" }).aiProbability = 200 ∧
    (100 : ℚ) <
      (combineAnalysisResults
        { aiProbability := 200, confidence := 200, factors := [],
          likelySource := "", reasoning := "", model := "" }
        { aiProbability := 200, confidence := 200, factors := [],
          likelySource := "", reasoning := "", model := "" }).aiProbability := by
  have h : (combineAnalysisResults
      { aiProbability := 200, confidence := 200, factors := [],
        likelySource := "", reasoning := "", model := "" }
      { aiProbability := 200, confidence := 200, factors := [],
        likelySource := "", reasoning := "", model := "" }).aiProbability =
      ((jsRound ((200 : ℚ) * (3 / 10) + 200 * (7 / 10)) : ℤ) : ℚ) := rfl
  rw [h]
  norm_num [jsRound]

/-- Claim C4, amended: the weighted aiProbability and confidence returned by
`combineAnalysisResults` lie in [0,100] whenever both inputs lie in [0,100];
no clamping is performed, so out-of-range inputs give out-of-range outputs. -/
theorem C4_amended (e c : ScoreResult)
    (h1 : 0 ≤ e.aiProbability) (h2 : e.aiProbability ≤ 100)
    (h3 : 0 ≤ c.aiProbability) (h4 : c.aiProbability ≤ 100)
    (h5 : 0 ≤ e.confidence) (h6 : e.confidence ≤ 100)
    (h7 : 0 ≤ c.confidence) (h8 : c.confidence ≤ 100) :
    0 ≤ (combineAnalysisResults e c).aiProbability ∧
    (combineAnalysisResults e c).aiProbability ≤ 100 ∧
    0 ≤ (combineAnalysisResults e c).confidence ∧
    (combineAnalysisResults e c).confidence ≤ 100 := by
  simp only [combineAnalysisResults]
  refine ⟨?_, ?_, ?_, ?_⟩
  · exact_mod_cast le_jsRound 0 _ (by push_cast; linarith)
  · exact_mod_cast jsRound_le 100 _ (by push_cast; linarith)
  · exact_mod_cast le_jsRound 0 _ (by push_cast; linarith)
  · exact_mod_cast jsRound_le 100 _ (by push_cast; linarith)

/-- Witness for the amended claim C4 at a concrete in-range input pair. -/
theorem C4_amended_witness :
    ((0 : ℚ) ≤ 50 ∧ (50 : ℚ) ≤ 100 ∧ (0 : ℚ) ≤ 80 ∧ (80 : ℚ) ≤ 100 ∧
      (0 : ℚ) ≤ 60 ∧ (60 : ℚ) ≤ 100 ∧ (0 : ℚ) ≤ 90 ∧ (90 : ℚ) ≤ 100) ∧
    (0 ≤ (combineAnalysisResults
        { aiProbability := 50, confidence := 60, factors := [],
          likelySource := "", reasoning := "", model := "" }
        { aiProbability := 80, confidence := 90, factors := [],
          likelySource := "", reasoning := "", model := "" }).aiProbability ∧
      (combineAnalysisResults
        { aiProbability := 50, confidence := 60, factors := [],
          likelySource := "", reasoning := "", model := "" }
        { aiProbability := 80, confidence := 90, factors := [],
          likelySource := "", reasoning := "", model := "" }).aiProbability ≤ 100 ∧
      0 ≤ (combineAnalysisResults
        { aiProbability := 50, confidence := 60, factors := [],
          likelySource := "", reasoning := "", model := "" }
        { aiProbability := 80, confidence := 90, factors := [],
          likelySource := "", reasoning := "", model := "" }).confidence ∧
      (combineAnalysisResults
        { aiProbability := 50, confidence := 60, factors := [],
          likelySource := "", reasoning := "", model := "" }
        { aiProbability := 80, confidence := 90, factors := [],
          likelySource := "", reasoning := "", model := "" }).confidence ≤ 100) :=
  ⟨⟨by norm_num, by norm_num, by norm_num, by norm_num,
    by norm_num, by norm_num, by norm_num, by norm_num⟩,
    C4_amended
      { aiProbability := 50, confidence := 60, factors := [],
        likelySource := "", reasoning := "", model := "" }
      { aiProbability := 80, confidence := 90, factors := [],
        likelySource := "", reasoning := "", model := "" }
      (by norm_num) (by norm_num) (by norm_num) (by norm_num)
      (by norm_num) (by norm_num) (by norm_num) (by norm_num)⟩

/-- Claim C10 (implicit): for integer inputs, the combined aiProbability lies
between the minimum and the maximum of the two input aiProbability values,
and likewise for confidence. -/
theorem C10_combine_between (a b p q : ℤ) (fe fc : List String)
    (se sc re rc me mc : String) :
    ((min a b : ℤ) : ℚ) ≤
      (combineAnalysisResults ⟨(a : ℚ), (p : ℚ), fe, se, re, me⟩
        ⟨(b : ℚ), (q : ℚ), fc, sc, rc, mc⟩).aiProbability ∧
    (combineAnalysisResults ⟨(a : ℚ), (p : ℚ), fe, se, re, me⟩
        ⟨(b : ℚ), (q : ℚ), fc, sc, rc, mc⟩).aiProbability ≤ ((max a b : ℤ) : ℚ) ∧
    ((min p q : ℤ) : ℚ) ≤
      (combineAnalysisResults ⟨(a : ℚ), (p : ℚ), fe, se, re, me⟩
        ⟨(b : ℚ), (q : ℚ), fc, sc, rc, mc⟩).confidence ∧
    (combineAnalysisResults ⟨(a : ℚ), (p : ℚ), fe, se, re, me⟩
        ⟨(b : ℚ), (q : ℚ), fc, sc, rc, mc⟩).confidence ≤ ((max p q : ℤ) : ℚ) := by
  simp only [combineAnalysisResults]
  refine ⟨?_, ?_, ?_, ?_⟩
  · exact_mod_cast le_jsRound (min a b) _ (by
      have hx : ((min a b : ℤ) : ℚ) ≤ (a : ℚ) := by exact_mod_cast min_le_left a b
      have hy : ((min a b : ℤ) : ℚ) ≤ (b : ℚ) := by exact_mod_cast min_le_right a b
      linarith)
  · exact_mod_cast jsRound_le (max a b) _ (by
      have hx : (a : ℚ) ≤ ((max a b : ℤ) : ℚ) := by exact_mod_cast le_max_left a b
      have hy : (b : ℚ) ≤ ((max a b : ℤ) : ℚ) := by exact_mod_cast le_max_right a b
      linarith)
  · exact_mod_cast le_jsRound (min p q) _ (by
      have hx : ((min p q : ℤ) : ℚ) ≤ (p : ℚ) := by exact_mod_cast min_le_left p q
      have hy : ((min p q : ℤ) : ℚ) ≤ (q : ℚ) := by exact_mod_cast min_le_right p q
      linarith)
  · exact_mod_cast jsRound_le (max p q) _ (by
      have hx : (p : ℚ) ≤ ((max p q : ℤ) : ℚ) := by exact_mod_cast le_max_left p q
      have hy : (q : ℚ) ≤ ((max p q : ℤ) : ℚ) := by exact_mod_cast le_max_right p q
      linarith)

theorem jsToLower_space_iff (c : Char) : jsToLower c = ' ' ↔ c = ' ' := by
  unfold jsToLower
  split <;> simp_all

theorem jsSplit_ne_nil (sep : Char) (l : List Char) : jsSplit sep l ≠ [] := by
  cases l with
  | nil => simp [jsSplit]
  | cons c cs =>
    simp only [jsSplit]
    split
    · simp
    · cases h : jsSplit sep cs <;> simp

theorem jsSplit_toLower (l : List Char) :
    jsSplit ' ' (toLowerList l) = (jsSplit ' ' l).map toLowerList := by
  induction l with
  | nil => rfl
  | cons c cs ih =>
    have ih' : jsSplit ' ' (List.map jsToLower cs) =
        List.map toLowerList (jsSplit ' ' cs) := ih
    by_cases hc : c = ' '
    · subst hc
      have h1 : jsToLower ' ' = ' ' := rfl
      simp [jsSplit, h1, ih', toLowerList]
    · have hc2 : jsToLower c ≠ ' ' := fun h => hc ((jsToLower_space_iff c).mp h)
      obtain ⟨t, ts, hts⟩ : ∃ t ts, jsSplit ' ' cs = t :: ts := by
        cases h : jsSplit ' ' cs with
        | nil => exact absurd h (jsSplit_ne_nil ' ' cs)
        | cons t ts => exact ⟨t, ts, rfl⟩
      simp [jsSplit, hc, hc2, ih', hts, toLowerList]

theorem lexicalDiversity_nonneg_aux (u w : Nat) :
    (0 : ℚ) ≤
      ((jsRound ((if 0 < w then (u : ℚ) / (w : ℚ) else 0) * 100) : ℤ) : ℚ) / 100 := by
  apply div_nonneg _ (by norm_num)
  have hld : (0 : ℚ) ≤ (if 0 < w then (u : ℚ) / (w : ℚ) else 0) := by
    split_ifs
    · positivity
    · exact le_refl 0
  have h100 : (0 : ℚ) ≤ (if 0 < w then (u : ℚ) / (w : ℚ) else 0) * 100 :=
    mul_nonneg hld (by norm_num)
  exact_mod_cast le_jsRound 0 _ (by exact_mod_cast h100)

/-- Claim C2, counterexample: the non-empty input `"a "` (a word followed by
a trailing space) has one non-empty word but two distinct split tokens (the
empty token counts), so `lexicalDiversity = 2 > 1`. -/
theorem C2_counterexample :
    (calculateEnhancedTextStats "a ").lexicalDiversity = 2 ∧
    (1 : ℚ) < (calculateEnhancedTextStats "a ").lexicalDiversity := by
  have h : (calculateEnhancedTextStats "a ").lexicalDiversity
      = ((jsRound ((((2 : Nat) : ℚ) / ((1 : Nat) : ℚ)) * 100) : ℤ) : ℚ) / 100 := rfl
  constructor <;> rw [h] <;> norm_num [jsRound]

/-- Claim C2, amended: for every non-empty input, `sentences ≥ 1` and
`lexicalDiversity ≥ 0`; the upper bound `lexicalDiversity ≤ 1` holds under
the additional hypothesis that every space-delimited token of the input is
non-empty (no leading, trailing or consecutive spaces), which is what the
claim implicitly assumed.  Empty tokens enter the distinct-token count but
not the word count, which is how the bound can fail. -/
theorem C2_amended (s : String) (hs : s ≠ "") :
    1 ≤ (calculateEnhancedTextStats s).sentences ∧
    0 ≤ (calculateEnhancedTextStats s).lexicalDiversity ∧
    ((∀ w ∈ jsSplit ' ' s.toList, w ≠ []) →
      (calculateEnhancedTextStats s).lexicalDiversity ≤ 1) := by
  simp only [calculateEnhancedTextStats, if_neg hs]
  refine ⟨le_max_left 1 _, lexicalDiversity_nonneg_aux _ _, ?_⟩
  intro hw
  have hfil : (jsSplit ' ' s.toList).filter (fun w => decide (0 < w.length)) =
      jsSplit ' ' s.toList := by
    apply List.filter_eq_self.mpr
    intro w hwmem
    simpa using List.length_pos.mpr (hw w hwmem)
  rw [hfil]
  have hnpos : 0 < (jsSplit ' ' s.toList).length :=
    List.length_pos.mpr (jsSplit_ne_nil ' ' s.toList)
  have hU : ((jsSplit ' ' (toLowerList s.toList)).dedup).length ≤
      (jsSplit ' ' s.toList).length := by
    rw [jsSplit_toLower]
    calc ((jsSplit ' ' s.toList).map toLowerList).dedup.length
        ≤ ((jsSplit ' ' s.toList).map toLowerList).length :=
          (List.dedup_sublist _).length_le
      _ = (jsSplit ' ' s.toList).length := List.length_map _ _
  rw [div_le_one (by norm_num : (0 : ℚ) < 100)]
  have hratio : (((jsSplit ' ' (toLowerList s.toList)).dedup).length : ℚ) /
      ((jsSplit ' ' s.toList).length : ℚ) ≤ 1 := by
    rw [div_le_one (by exact_mod_cast hnpos)]
    exact_mod_cast hU
  have harg : (if 0 < (jsSplit ' ' s.toList).length then
        (((jsSplit ' ' (toLowerList s.toList)).dedup).length : ℚ) /
          ((jsSplit ' ' s.toList).length : ℚ)
      else 0) * 100 ≤ ((100 : ℤ) : ℚ) := by
    rw [if_pos hnpos]
    push_cast
    linarith
  exact_mod_cast jsRound_le 100 _ harg

/-- Witness for the amended claim C2 at the concrete input "hello world". -/
theorem C2_amended_witness :
    ("hello world" : String) ≠ "" ∧
    (∀ w ∈ jsSplit ' ' ("hello world" : String).toList, w ≠ []) ∧
    (1 ≤ (calculateEnhancedTextStats "hello world").sentences ∧
      0 ≤ (calculateEnhancedTextStats "hello world").lexicalDiversity ∧
      (calculateEnhancedTextStats "hello world").lexicalDiversity ≤ 1) := by
  have h1 : ("hello world" : String) ≠ "" := by decide
  have h2 : ∀ w ∈ jsSplit ' ' ("hello world" : String).toList, w ≠ [] := by decide
  have h3 := C2_amended "hello world" h1
  exact ⟨h1, h2, h3.1, h3.2.1, h3.2.2 h2⟩

/-- Claim C3: evaluation of the statistics at the failing input `" "` (one
space: non-empty, zero words).  The guard in the source only catches the
empty string, so this input reaches the main path and produces
`sentences = 1`, not the all-zero record the claim requires; the
`readabilityScore` computation divides `syllables` by `words = 0` (which in
JavaScript yields `Infinity`). -/
theorem C3_space_eval :
    (calculateEnhancedTextStats " ").words = 0 ∧
    (calculateEnhancedTextStats " ").sentences = 1 :=
  ⟨by decide, by decide⟩

theorem toList_mk (l : List Char) : (String.mk l).toList = l := rfl

/-- Claim C6, counterexample: removing the URL from `"a http://x b"` deletes
the characters between two spaces, so the output `"a  b"` contains a
whitespace run of length two even though the input had been
whitespace-collapsed; the final output of `preprocessText` is therefore not
whitespace-normalized. -/
theorem C6_counterexample :
    preprocessText "a http://x b" = "a  b" ∧
    wsNormalized (preprocessText "a http://x b").toList = false :=
  ⟨rfl, by decide⟩

/-- Claim C6, amended: every character of the output of `preprocessText`
belongs to the whitelist (word characters, whitespace, kept punctuation); in
particular no `/` and no `@` survives, so no URL and no email address can
occur in the output; and empty input yields empty output.  Whitespace is
collapsed and trimmed before the removal passes, but URL, email and
special-character removal may leave adjacent, leading or trailing spaces, so
the collapse/trim part of the original claim does not hold of the final
output. -/
theorem C6_amended (s : String) :
    (preprocessText s).toList.all keepChar = true ∧
    (preprocessText s).toList.contains '/' = false ∧
    (preprocessText s).toList.contains '@' = false ∧
    preprocessText "" = "" := by
  have hall : (preprocessText s).toList.all keepChar = true := by
    by_cases hs : s = ""
    · subst hs; rfl
    · simp only [preprocessText, if_neg hs, toList_mk]
      rw [List.all_eq_true]
      intro c hc
      exact (List.mem_filter.mp hc).2
  have hnot : ∀ c : Char, keepChar c = false →
      (preprocessText s).toList.contains c = false := by
    intro c hkc
    rw [Bool.eq_false_iff]
    intro hcon
    have hm : c ∈ (preprocessText s).toList := List.elem_iff.mp hcon
    have hkc2 := List.all_eq_true.mp hall c hm
    rw [hkc] at hkc2
    exact Bool.false_ne_true hkc2
  exact ⟨hall, hnot '/' (by decide), hnot '@' (by decide), rfl⟩

theorem stringAppend_assoc (a b c : String) : a ++ b ++ c = a ++ (b ++ c) := by
  cases a with
  | mk la =>
    cases b with
    | mk lb =>
      cases c with
      | mk lc => exact congrArg String.mk (List.append_assoc la lb lc)

/-- Claim C9, counterexample: at `aiProbability = 60` exactly, the source
takes the AI-leaning branch (`< 60` fails), while the claim assigns 60 to
the mixed-indicators band. -/
theorem C9_counterexample :
    getEnhancedInterpretation
        { aiProbability := 60, confidence := 50, factors := [],
          likelySource := "", reasoning := "", model := "" }
        { words := 20, sentences := 1, avgWordsPerSentence := 20,
          longWords := 0, personalPronouns := 1, readabilityScore := 5,
          lexicalDiversity := 9 / 10 } = standardQualifier ++ aiSummary ∧
    getEnhancedInterpretation
        { aiProbability := 60, confidence := 50, factors := [],
          likelySource := "", reasoning := "", model := "" }
        { words := 20, sentences := 1, avgWordsPerSentence := 20,
          longWords := 0, personalPronouns := 1, readabilityScore := 5,
          lexicalDiversity := 9 / 10 } ≠ standardQualifier ++ mixedSummary := by
  have h : getEnhancedInterpretation
      { aiProbability := 60, confidence := 50, factors := [],
        likelySource := "", reasoning := "", model := "" }
      { words := 20, sentences := 1, avgWordsPerSentence := 20,
        longWords := 0, personalPronouns := 1, readabilityScore := 5,
        lexicalDiversity := 9 / 10 } = standardQualifier ++ aiSummary := by
    simp only [getEnhancedInterpretation]
    norm_num
  refine ⟨h, ?_⟩
  rw [h]
  decide

/-- Claim C9, amended: the summary is selected by thresholds with the AI
band closed at 60 (below 30 human-leaning, from 30 up to but excluding 60
mixed, at 60 and above AI-leaning); the short-sample caveat is prefixed
exactly when the text has fewer than 15 words, and the three conditional
notes are appended afterwards. -/
theorem C9_amended (r : ScoreResult) (st : TextStats) :
    getEnhancedInterpretation r st =
      (if st.words < 15 then shortQualifier else standardQualifier) ++
        (if r.aiProbability < 30 then humanSummary
          else if r.aiProbability < 60 then mixedSummary else aiSummary) ++
        ((if st.lexicalDiversity < 1 / 2 ∧ st.words > 50 then lowDiversityNote
            else "") ++
          (if st.personalPronouns = 0 ∧ st.words > 30 then noPronounsNote
            else "") ++
          (if st.readabilityScore > 12 then highReadabilityNote else "")) := by
  simp only [getEnhancedInterpretation]
  rw [stringAppend_assoc, stringAppend_assoc, ← stringAppend_assoc
    (if st.lexicalDiversity < 1 / 2 ∧ st.words > 50 then lowDiversityNote else "")]

theorem sumMul_replicate_right (c : ℝ) :
    ∀ (v : List ℝ) (n : Nat), v.length = n →
      sumMul v (List.replicate n c) = c * v.sum := by
  intro v
  induction v with
  | nil =>
    intro n h
    have : n = 0 := h.symm
    subst this
    simp [sumMul]
  | cons a t ih =>
    intro n h
    cases n with
    | zero => simp at h
    | succ m =>
      have ht : t.length = m := by simpa using h
      have hrec := ih m ht
      simp only [List.replicate_succ, sumMul, List.zipWith_cons_cons,
        List.sum_cons] at *
      rw [hrec]
      ring

theorem sumMul_replicate_self (c : ℝ) (n : Nat) :
    sumMul (List.replicate n c) (List.replicate n c) = (n : ℝ) * (c * c) := by
  induction n with
  | zero => simp [sumMul]
  | succ m ih =>
    simp only [List.replicate_succ, sumMul, List.zipWith_cons_cons,
      List.sum_cons] at *
    rw [ih]
    push_cast
    ring

theorem cosineSimilarity_replicate (v : List ℝ) (n : Nat) (hn : 0 < n)
    (c : ℝ) (hc : 0 < c) :
    cosineSimilarity Real.sqrt v (List.replicate n c) =
      if v.length ≠ n ∨ Real.sqrt (sumMul v v) = 0 then 0
      else v.sum / (Real.sqrt (sumMul v v) * Real.sqrt (n : ℝ)) := by
  simp only [cosineSimilarity, List.length_replicate]
  by_cases hlen : v.length = n
  · have hne : ¬(v.length ≠ n) := by simpa using hlen
    rw [if_neg hne]
    rw [sumMul_replicate_self c n]
    have hsqn : Real.sqrt ((n : ℝ) * (c * c)) = Real.sqrt (n : ℝ) * c := by
      rw [Real.sqrt_mul (by positivity) (c * c), show c * c = c ^ 2 by ring,
        Real.sqrt_sq hc.le]
    rw [hsqn]
    have hnn : Real.sqrt (n : ℝ) ≠ 0 := by
      rw [Real.sqrt_ne_zero']
      exact_mod_cast hn
    have hn2 : Real.sqrt (n : ℝ) * c ≠ 0 := mul_ne_zero hnn hc.ne'
    by_cases h1 : Real.sqrt (sumMul v v) = 0
    · rw [if_pos (Or.inl h1), if_pos (Or.inr h1)]
    · rw [if_neg (by push_neg; exact ⟨h1, hn2⟩),
        if_neg (by push_neg; exact ⟨hlen, h1⟩)]
      rw [sumMul_replicate_right c v n hlen]
      field_simp
      ring
  · rw [if_pos hlen, if_pos (Or.inl hlen)]

/-- Claim C5: with `simAI` and `simHuman` the cosine similarities of the
text embedding against the two fixed 1536-dimensional reference vectors,
`performEmbeddingAnalysis` returns
`aiProbability = round(100 * simAI / (simAI + simHuman))` whenever the
similarity sum is nonzero and `50` otherwise, and always returns
`confidence = 70`.  (Both reference vectors are constant and positive, so
the two similarities coincide and the returned probability is 50 on every
path, making the source's `> 0` test and the claim's "nonzero" test agree.) -/
theorem C5_embedding_analysis (emb : List ℝ) :
    (performEmbeddingAnalysis Real.sqrt emb).confidence = 70 ∧
    (performEmbeddingAnalysis Real.sqrt emb).aiProbability =
      (((if cosineSimilarity Real.sqrt emb aiPatternVec +
            cosineSimilarity Real.sqrt emb humanPatternVec = 0 then (50 : ℤ)
          else jsRound (100 * (cosineSimilarity Real.sqrt emb aiPatternVec /
            (cosineSimilarity Real.sqrt emb aiPatternVec +
              cosineSimilarity Real.sqrt emb humanPatternVec)))) : ℤ) : ℚ) := by
  constructor
  · rfl
  · have hai : (aiPatternVec : List ℝ) = List.replicate 1536 ((1 : ℝ) / 10) := rfl
    have hhu : (humanPatternVec : List ℝ) = List.replicate 1536 ((2 : ℝ) / 10) := rfl
    have heq : cosineSimilarity Real.sqrt emb (humanPatternVec : List ℝ) =
        cosineSimilarity Real.sqrt emb (aiPatternVec : List ℝ) := by
      rw [hai, hhu,
        cosineSimilarity_replicate emb 1536 (by norm_num) ((2 : ℝ) / 10) (by norm_num),
        cosineSimilarity_replicate emb 1536 (by norm_num) ((1 : ℝ) / 10) (by norm_num)]
    simp only [performEmbeddingAnalysis]
    rw [heq]
    set s := cosineSimilarity Real.sqrt emb (aiPatternVec : List ℝ) with hsdef
    have key : (if s + s > 0 then jsRound (s / (s + s) * 100) else 50) =
        (if s + s = 0 then (50 : ℤ)
          else jsRound (100 * (s / (s + s)))) := by
      by_cases h0 : s = 0
      · rw [h0]
        norm_num
      · have hsum : s + s ≠ 0 := fun hcon => h0 (by linarith)
        have hhalf : s / (s + s) = 1 / 2 := by
          rw [← two_mul, div_eq_iff (mul_ne_zero two_ne_zero h0)]
          ring
        rw [if_neg hsum, hhalf]
        have h50a : jsRound ((1 : ℝ) / 2 * 100) = 50 := by norm_num [jsRound]
        have h50b : jsRound ((100 : ℝ) * (1 / 2)) = 50 := by norm_num [jsRound]
        rw [h50b]
        split_ifs with hpos
        · exact h50a
        · rfl
    exact congrArg (fun z : ℤ => (z : ℚ)) key

theorem chunksAux_flatten {α : Type} (n : Nat) (hn : 0 < n) :
    ∀ (fuel : Nat) (l : List α), l.length ≤ fuel →
      (chunksAux n fuel l).flatten = l := by
  intro fuel
  induction fuel with
  | zero =>
    intro l hl
    have : l = [] := List.eq_nil_of_length_eq_zero (Nat.le_zero.mp hl)
    subst this
    rfl
  | succ f ih =>
    intro l hl
    cases l with
    | nil => rfl
    | cons x xs =>
      show ((x :: xs).take n :: chunksAux n f ((x :: xs).drop n)).flatten
        = x :: xs
      rw [List.flatten_cons, ih ((x :: xs).drop n) ?hle,
        List.take_append_drop]
      case hle =>
        rw [List.length_drop]
        simp only [List.length_cons] at hl ⊢
        omega

theorem chunks_flatten_eq {α : Type} (n : Nat) (hn : 0 < n) (l : List α) :
    (chunks n l).flatten = l :=
  chunksAux_flatten n hn l.length l le_rfl

theorem chunksAux_mem_length {α : Type} (n : Nat) :
    ∀ (fuel : Nat) (l : List α) (b : List α), b ∈ chunksAux n fuel l →
      b.length ≤ n := by
  intro fuel
  induction fuel with
  | zero =>
    intro l b hb
    cases l <;> simp [chunksAux] at hb
  | succ f ih =>
    intro l b hb
    cases l with
    | nil => simp [chunksAux] at hb
    | cons x xs =>
      simp only [chunksAux, List.mem_cons] at hb
      rcases hb with h | h
      · subst h
        exact List.length_take_le n (x :: xs)
      · exact ih _ _ h

theorem map_processItem_reduceOption
    (analyze : String → Except String SingleAnalysis) :
    ∀ l : List String, (l.map (processItem analyze)).reduceOption =
      (l.filter isNonBlank).map (itemFor analyze) := by
  intro l
  induction l with
  | nil => rfl
  | cons t ts ih =>
    by_cases h : isNonBlank t = true
    · rw [List.map_cons, processItem, if_pos h,
        List.reduceOption_cons_of_some, List.filter_cons_of_pos h,
        List.map_cons, ih]
    · rw [List.map_cons, processItem, if_neg h,
        List.reduceOption_cons_of_none, List.filter_cons_of_neg h, ih]

theorem batch_map_eq (analyze : String → Except String SingleAnalysis)
    (texts : List String) :
    analyzeBatchWithEnhancedOpenAI analyze texts =
      (texts.filter isNonBlank).map (itemFor analyze) := by
  unfold analyzeBatchWithEnhancedOpenAI
  have hstep : ∀ L : List (List String),
      (L.map (fun b => (b.map (processItem analyze)).reduceOption)).flatten =
        ((L.flatten).map (processItem analyze)).reduceOption := by
    intro L
    induction L with
    | nil => rfl
    | cons b L ihL =>
      rw [List.map_cons, List.flatten_cons, List.flatten_cons,
        List.map_append, List.reduceOption_append, ihL]
  rw [hstep, chunks_flatten_eq batchSize (by decide) texts]
  exact map_processItem_reduceOption analyze texts

theorem itemFor_text (analyze : String → Except String SingleAnalysis)
    (t : String) : (itemFor analyze t).text = t := by
  cases h : analyze t <;> simp [itemFor, h]

/-- Claim C8: the batch result has exactly one entry per non-blank input, in
input order (its slot texts are the filtered input sequence), the groups
partition the input in order with every group of size at most 3, and the
concrete 7-element batch is grouped as sizes [3,3,1] with an output of
length 7. -/
theorem C8_batch_shape (analyze : String → Except String SingleAnalysis)
    (texts : List String) :
    (analyzeBatchWithEnhancedOpenAI analyze texts).map (fun r => r.text) =
      texts.filter isNonBlank ∧
    (analyzeBatchWithEnhancedOpenAI analyze texts).length =
      (texts.filter isNonBlank).length ∧
    (chunks batchSize texts).flatten = texts ∧
    (chunks batchSize texts).all (fun b => decide (b.length ≤ batchSize)) =
      true ∧
    (chunks batchSize
        ["t1", "t2", "t3", "t4", "t5", "t6", "t7"]).map List.length =
      [3, 3, 1] ∧
    (analyzeBatchWithEnhancedOpenAI analyze
        ["t1", "t2", "t3", "t4", "t5", "t6", "t7"]).length = 7 := by
  have hb := batch_map_eq analyze texts
  refine ⟨?_, ?_, chunks_flatten_eq batchSize (by decide) texts, ?_,
    by decide, ?_⟩
  · rw [hb, List.map_map]
    have hcomp : ((fun r : BatchItem => r.text) ∘ itemFor analyze) = id := by
      funext t
      exact itemFor_text analyze t
    rw [hcomp, List.map_id]
  · rw [hb, List.length_map]
  · rw [List.all_eq_true]
    intro b hbmem
    simpa using chunksAux_mem_length batchSize texts.length texts b hbmem
  · rw [batch_map_eq analyze ["t1", "t2", "t3", "t4", "t5", "t6", "t7"],
      List.length_map]
    decide

/-- Claim C7: a non-blank item whose analysis fails with message `msg` gets
the sentinel record in its slot; the batch is not aborted (the output length
is still the non-blank count); and the slot of any item whose own analysis
outcome is unchanged is unchanged, whatever the other items do. -/
theorem C7_batch_failure
    (analyze analyze' : String → Except String SingleAnalysis)
    (texts : List String) (i j : Nat) (t u : String) (msg : String)
    (hi : (texts.filter isNonBlank)[i]? = some t)
    (herr : analyze t = Except.error msg) :
    (analyzeBatchWithEnhancedOpenAI analyze texts)[i]? =
      some { text := t, error := some msg, aiProbability := 50,
             confidence := 10, interpretation := "Analysis failed" } ∧
    (analyzeBatchWithEnhancedOpenAI analyze texts).length =
      (texts.filter isNonBlank).length ∧
    ((texts.filter isNonBlank)[j]? = some u → analyze' u = analyze u →
      (analyzeBatchWithEnhancedOpenAI analyze' texts)[j]? =
        (analyzeBatchWithEnhancedOpenAI analyze texts)[j]?) := by
  have hb := batch_map_eq analyze texts
  have hb' := batch_map_eq analyze' texts
  refine ⟨?_, by rw [hb, List.length_map], ?_⟩
  · rw [hb, List.getElem?_map, hi]
    simp [itemFor, herr]
  · intro hj hagree
    rw [hb, hb', List.getElem?_map, List.getElem?_map, hj]
    simp [itemFor, hagree]

/-- Witness for claim C7: a one-element batch whose only item fails. -/
theorem C7_batch_failure_witness :
    ((["a"] : List String).filter isNonBlank)[0]? = some "a" ∧
    ((fun _ : String =>
        (Except.error "boom" : Except String SingleAnalysis)) "a" =
      Except.error "boom") ∧
    ((analyzeBatchWithEnhancedOpenAI
        (fun _ => Except.error "boom") ["a"])[0]? =
      some { text := "a", error := some "boom", aiProbability := 50,
             confidence := 10, interpretation := "Analysis failed" } ∧
    (analyzeBatchWithEnhancedOpenAI
        (fun _ => Except.error "boom") ["a"]).length =
      ((["a"] : List String).filter isNonBlank).length ∧
    (((["a"] : List String).filter isNonBlank)[0]? = some "a" →
      (fun _ : String =>
          (Except.error "boom" : Except String SingleAnalysis)) "a" =
        (fun _ : String =>
          (Except.error "boom" : Except String SingleAnalysis)) "a" →
      (analyzeBatchWithEnhancedOpenAI
          (fun _ => Except.error "boom") ["a"])[0]? =
        (analyzeBatchWithEnhancedOpenAI
          (fun _ => Except.error "boom") ["a"])[0]?)) := by
  have h1 : ((["a"] : List String).filter isNonBlank)[0]? = some "a" := by
    decide
  exact ⟨h1, rfl,
    C7_batch_failure (fun _ => Except.error "boom")
      (fun _ => Except.error "boom") ["a"] 0 0 "a" "a" "boom" h1 rfl⟩
